import Mathlib

/-!
Shallow embedding of the order-lifecycle and stock-consistency core of the
Shopping-app backend (Express/Mongoose), translated from:

* `backend/routes/order.js`   — order placement, admin update, cancel,
  customer pay, vendor status update;
* the payment routes file     — payment confirm, refund;
* `routes/shipping.js`        — shipping cost calculation;
* `models/Order.js`, `backend/models/Product.js` — the data model and
  its schema defaults.

Modelling conventions.  JavaScript numbers used as money (price, offer,
total, refund amount) are modelled as `ℚ`; counters (stock, quantity) as
`ℤ` — the schemas impose no lower bound on either, and route handlers
perform no validation beyond what is written below.  The document store
is a partial map from product ids to products.  Authentication, role and
ownership checks are not modelled: every claim quantifies over requests
by an authorized caller, and those checks precede (and are independent
of) all state mutation in every handler.  Fields never read or written by
the modelled handlers (shipping address, tracking number, notes, vendor,
name, category, active flag) are omitted from the structures.
-/

namespace Shop

/-- Order status enum of `models/Order.js` (`status` field). -/
inductive OrderStatus
  | pending | paid | shipped | delivered | cancelled | refunded
deriving DecidableEq

/-- Payment status enum of `models/Order.js` (`paymentStatus` field). -/
inductive PaymentStatus
  | pending | paid | failed | refunded
deriving DecidableEq

/-- Payment method values actually written by the modelled handlers:
the schema default `cash_on_delivery` and the value `card` written by the
payment-confirm handler. -/
inductive PayMethod
  | cashOnDelivery | card
deriving DecidableEq

/-- Product record (`backend/models/Product.js`): `price` (required),
`offer` (discount percentage, default 0), `stock` (default 0).  The
schema declares no minimum for any of them. -/
structure Product where
  price : ℚ
  offer : ℚ
  stock : ℤ
deriving DecidableEq

/-- Order line (`orderItemSchema` in `models/Order.js`): product
reference, quantity, price snapshot.  The schema declares no minimum for
`quantity`. -/
structure OrderItem where
  product : ℕ
  quantity : ℤ
  priceAtPurchase : ℚ
deriving DecidableEq

/-- Order record (`models/Order.js`).  `status` defaults to `pending`,
`paymentStatus` to `pending`, `paymentMethod` to `cash_on_delivery`. -/
structure Order where
  customer : ℕ
  items : List OrderItem
  total : ℚ
  status : OrderStatus
  paymentStatus : PaymentStatus
  paymentMethod : PayMethod
deriving DecidableEq

/-- Requested line of an order-creation body: `{ product, quantity }`. -/
structure ReqItem where
  product : ℕ
  quantity : ℤ
deriving DecidableEq

/-- The product collection: a partial map from product id to product. -/
def Store : Type := ℕ → Option Product

/-- Error outcomes of the modelled handlers, one constructor per distinct
error response: `invalidInput` (400, missing/empty input), `notFound`
(404), `insufficientStock` (400), `invalidTransition` (400, wrong order
state), `notPaid` (400, refund on an unpaid order), `refundExceedsTotal`
(400, refund amount above the order total). -/
inductive Err
  | invalidInput
  | notFound
  | insufficientStock
  | invalidTransition
  | notPaid
  | refundExceedsTotal
deriving DecidableEq

/-- `Product.findByIdAndUpdate(pid, { stock: v })`: overwrite the stock
of product `pid` when it exists; a missing id is a no-op. -/
def setStock (s : Store) (pid : ℕ) (v : ℤ) : Store :=
  fun j => if j = pid then (s j).map (fun p => { p with stock := v }) else s j

/-- `Product.findByIdAndUpdate(pid, { $inc: { stock: d } })`: increment
the stock of product `pid` when it exists; a missing id is a no-op. -/
def incStock (s : Store) (pid : ℕ) (d : ℤ) : Store :=
  fun j => if j = pid then (s j).map (fun p => { p with stock := p.stock + d }) else s j

/-- Discounted unit price computed by the order-placement handler:
`product.price * (1 - (product.offer || 0) / 100)`. -/
def effectivePrice (p : Product) : ℚ :=
  p.price * (1 - p.offer / 100)

/-- Per-item loop of `POST /` in `backend/routes/order.js` (lines 21-41),
threading the store, the running `total` and the accumulated
`orderItems`.  Each iteration re-fetches the product from the current
store, fails `notFound` when it is missing, fails `insufficientStock`
when `product.stock < item.quantity`, otherwise appends the order line
with the discounted price snapshot, accumulates the line total, and
immediately persists the decremented stock.  On failure the store keeps
every decrement already applied to earlier items. -/
def processItems : List ReqItem → Store → ℚ → List OrderItem →
    Store × Except Err (ℚ × List OrderItem)
  | [], s, total, acc => (s, Except.ok (total, acc))
  | item :: rest, s, total, acc =>
    match s item.product with
    | none => (s, Except.error Err.notFound)
    | some p =>
      if p.stock < item.quantity then
        (s, Except.error Err.insufficientStock)
      else
        processItems rest
          (setStock s item.product (p.stock - item.quantity))
          (total + effectivePrice p * (item.quantity : ℚ))
          (acc ++ [⟨item.product, item.quantity, effectivePrice p⟩])

/-- `POST /` of `backend/routes/order.js` (customer places an order):
reject an empty item list, run the per-item loop, and on success persist
the order with the schema defaults `status = pending`,
`paymentStatus = pending`, `paymentMethod = cash_on_delivery`.  The
returned store is the product collection after the handler finishes:
on a mid-loop failure it keeps the decrements already applied. -/
def createOrder (customerId : ℕ) (items : List ReqItem) (s : Store) :
    Store × Except Err Order :=
  if items = [] then (s, Except.error Err.invalidInput)
  else
    match processItems items s 0 [] with
    | (s', Except.error e) => (s', Except.error e)
    | (s', Except.ok (total, lines)) =>
      (s', Except.ok
        { customer := customerId, items := lines, total := total,
          status := OrderStatus.pending, paymentStatus := PaymentStatus.pending,
          paymentMethod := PayMethod.cashOnDelivery })

/-- `PATCH /:id/pay` (customer marks order paid): requires
`order.status === 'pending'`, then sets `status = paid`. -/
def payOrder (o : Order) : Except Err Order :=
  if o.status = OrderStatus.pending then
    Except.ok { o with status := OrderStatus.paid }
  else Except.error Err.invalidTransition

/-- `PATCH /:id/status` (vendor updates order status): the requested
status must be one of `shipped`, `delivered`, `cancelled`; the current
status of the order is not consulted at all. -/
def vendorUpdateStatus (o : Order) (st : OrderStatus) : Except Err Order :=
  if st = OrderStatus.shipped ∨ st = OrderStatus.delivered ∨ st = OrderStatus.cancelled then
    Except.ok { o with status := st }
  else Except.error Err.invalidInput

/-- `POST /confirm` of the payment routes: unconditionally sets
`status = paid`, `paymentStatus = paid`, `paymentMethod = card` on the
fetched order — no check of the current status. -/
def confirmPayment (o : Order) : Order :=
  { o with status := OrderStatus.paid, paymentStatus := PaymentStatus.paid,
           paymentMethod := PayMethod.card }

/-- `PUT /:id` (admin updates an order): `findByIdAndUpdate` with
`{ status, total, shippingAddress }` from the request body; fields absent
from the body (modelled as `none`) are stripped and left unchanged,
supplied fields overwrite the stored values.  `runValidators` restricts
`status` to the enum, which the `OrderStatus` type enforces. -/
def adminUpdateOrder (o : Order) (st : Option OrderStatus) (total : Option ℚ) : Order :=
  { o with status := st.getD o.status, total := total.getD o.total }

/-- Stock-restoring loop of the cancel handler: for each order line,
`$inc` the product's stock by the line's quantity. -/
def restoreStock : List OrderItem → Store → Store
  | [], s => s
  | item :: rest, s => restoreStock rest (incStock s item.product item.quantity)

/-- `DELETE /:id` (cancel order): only `pending` or `paid` orders can be
cancelled; when the order was `paid` every line's stock is restored
first; then `status = cancelled` is saved.  Any other status fails with
the invalid-transition error and changes nothing. -/
def cancelOrder (o : Order) (s : Store) : Store × Except Err Order :=
  if o.status = OrderStatus.pending ∨ o.status = OrderStatus.paid then
    ( if o.status = OrderStatus.paid then restoreStock o.items s else s,
      Except.ok { o with status := OrderStatus.cancelled } )
  else (s, Except.error Err.invalidTransition)

/-- `POST /refund` of the payment routes: the body check `!amount`
rejects a zero amount as a missing field; then the order must have
`paymentStatus === 'paid'`; an amount above the total is rejected; an
amount equal to the total sets both `status` and `paymentStatus` to
`refunded`; otherwise (a partial refund) the order is saved unchanged and
the handler still reports success. -/
def refundOrder (o : Order) (amount : ℚ) : Except Err Order :=
  if amount = 0 then Except.error Err.invalidInput
  else if o.paymentStatus ≠ PaymentStatus.paid then Except.error Err.notPaid
  else if o.total < amount then Except.error Err.refundExceedsTotal
  else if amount = o.total then
    Except.ok { o with status := OrderStatus.refunded,
                       paymentStatus := PaymentStatus.refunded }
  else Except.ok o

/-- Shipping methods of `routes/shipping.js`; an unknown method string
falls back to `standard` before any rate is read, so the three valid
methods cover all rate tables. -/
inductive ShipMethod
  | standard | express | overnight
deriving DecidableEq

/-- Base rate per shipping method (`shippingRates[method].base`). -/
def shipBase : ShipMethod → ℚ
  | ShipMethod.standard => 599 / 100
  | ShipMethod.express => 1299 / 100
  | ShipMethod.overnight => 2499 / 100

/-- Per-kilogram rate per shipping method (`shippingRates[method].perKg`). -/
def shipPerKg : ShipMethod → ℚ
  | ShipMethod.standard => 5 / 2
  | ShipMethod.express => 4
  | ShipMethod.overnight => 6

/-- Cart line of the shipping-cost body: `{ price, quantity }`
(`item.price || 0` is modelled as the price being present). -/
structure CartItem where
  price : ℚ
  quantity : ℤ
deriving DecidableEq

/-- Accumulation loop of `POST /calculate`: per item,
`totalWeight += 0.5 * quantity` and `totalValue += price * quantity`. -/
def cartTotals : List CartItem → ℚ × ℚ → ℚ × ℚ
  | [], t => t
  | item :: rest, (w, v) =>
      cartTotals rest (w + 1 / 2 * (item.quantity : ℚ), v + item.price * (item.quantity : ℚ))

/-- `POST /calculate` of `routes/shipping.js`: reject an empty item
list, accumulate weight and value, compute
`cost = base + totalWeight * perKg`, and return 0 instead when
`totalValue > 50` (free shipping). -/
def calculateShipping (items : List CartItem) (m : ShipMethod) : Except Err ℚ :=
  if items = [] then Except.error Err.invalidInput
  else
    let t := cartTotals items (0, 0)
    let cost := shipBase m + t.1 * shipPerKg m
    Except.ok (if 50 < t.2 then 0 else cost)

/-- Order line built by the handler for a requested item, read off the
store it is processed against: the discounted price snapshot of the
referenced product (0 when the product is missing, a case the handler
never reaches). -/
def lineOf (s : Store) (it : ReqItem) : OrderItem :=
  match s it.product with
  | some p => ⟨it.product, it.quantity, effectivePrice p⟩
  | none => ⟨it.product, it.quantity, 0⟩

/-- Total quantity requested for product `pid` across an order-creation
request. -/
def qtyFor (pid : ℕ) (items : List ReqItem) : ℤ :=
  (items.map (fun it => if it.product = pid then it.quantity else 0)).sum

/-- Total quantity held by the lines of an order for product `pid`. -/
def lineQtyFor (pid : ℕ) (items : List OrderItem) : ℤ :=
  (items.map (fun it => if it.product = pid then it.quantity else 0)).sum

/-- Outcome of the two per-item checks of the order-placement loop on a
single item against a given store: `notFound` when the product is
missing, `insufficientStock` when `stock < quantity`, `none` when the
item passes. -/
def itemCheck (s : Store) (it : ReqItem) : Option Err :=
  match s it.product with
  | none => some Err.notFound
  | some p => if p.stock < it.quantity then some Err.insufficientStock else none

/-- Example store used by concrete instances below: product 1 priced 10
with a 10 % offer and stock 5. -/
def demoStore : Store :=
  fun j => if j = 1 then some ⟨10, 10, 5⟩ else none

theorem qtyFor_nil (pid : ℕ) : qtyFor pid [] = 0 := rfl

theorem qtyFor_cons (pid : ℕ) (it : ReqItem) (rest : List ReqItem) :
    qtyFor pid (it :: rest) =
      (if it.product = pid then it.quantity else 0) + qtyFor pid rest := by
  simp [qtyFor]

theorem lineQtyFor_cons (pid : ℕ) (it : OrderItem) (rest : List OrderItem) :
    lineQtyFor pid (it :: rest) =
      (if it.product = pid then it.quantity else 0) + lineQtyFor pid rest := by
  simp [lineQtyFor]

theorem qtyFor_nonneg (pid : ℕ) (items : List ReqItem)
    (h : ∀ it ∈ items, 0 ≤ it.quantity) : 0 ≤ qtyFor pid items := by
  induction items with
  | nil => simp [qtyFor]
  | cons it rest ih =>
    have h1 := h it (List.mem_cons_self _ _)
    have h2 := ih (fun x hx => h x (List.mem_cons_of_mem _ hx))
    rw [qtyFor_cons]
    by_cases hp : it.product = pid <;> simp [hp] <;> omega

theorem lineOf_setStock (s : Store) (pid : ℕ) (v : ℤ) (it : ReqItem) :
    lineOf (setStock s pid v) it = lineOf s it := by
  simp only [lineOf, setStock]
  by_cases h : it.product = pid
  · simp only [h, if_pos rfl]
    cases s pid <;> simp [effectivePrice]
  · simp [h]

theorem restoreStock_apply (items : List OrderItem) :
    ∀ (s : Store) (pid : ℕ),
    restoreStock items s pid =
      (s pid).map (fun p => { p with stock := p.stock + lineQtyFor pid items }) := by
  induction items with
  | nil =>
    intro s pid
    simp only [restoreStock, lineQtyFor, List.map_nil, List.sum_nil]
    cases s pid <;> simp
  | cons item rest ih =>
    intro s pid
    rw [restoreStock, ih, lineQtyFor_cons]
    by_cases hpe : pid = item.product
    · subst hpe
      have h1 : incStock s item.product item.quantity item.product
          = (s item.product).map (fun p => { p with stock := p.stock + item.quantity }) := by
        simp [incStock]
      have h2 : (if item.product = item.product then item.quantity else 0) = item.quantity := by
        simp
      rw [h1, h2, Option.map_map]
      congr 1
      funext p
      simp [Function.comp, add_assoc]
    · simp only [incStock, if_neg hpe, if_neg (Ne.symm hpe), zero_add]

theorem cartTotals_spec (items : List CartItem) :
    ∀ (w v : ℚ),
    cartTotals items (w, v) =
      (w + 1 / 2 * (items.map (fun i => (i.quantity : ℚ))).sum,
       v + (items.map (fun i => i.price * (i.quantity : ℚ))).sum) := by
  induction items with
  | nil => intro w v; simp [cartTotals]
  | cons item rest ih =>
    intro w v
    rw [cartTotals, ih]
    simp only [List.map_cons, List.sum_cons, Prod.mk.injEq]
    constructor <;> ring

/-- Behaviour of the per-item loop on a request whose quantities are all
nonnegative, whose products all exist, and whose per-product requested
totals all fit in the current stock: it succeeds, the accumulated total
and lines are the sums and price snapshots read off the starting store,
and every product's stock drops by exactly the total quantity requested
for it. -/
theorem processItems_spec (items : List ReqItem) :
    ∀ (s : Store) (t0 : ℚ) (acc : List OrderItem),
    (∀ it ∈ items, 0 ≤ it.quantity) →
    (∀ it ∈ items, ∃ p, s it.product = some p) →
    (∀ it ∈ items, ∀ p, s it.product = some p → qtyFor it.product items ≤ p.stock) →
    (processItems items s t0 acc).2 =
      Except.ok
        (t0 + (items.map (fun it => (lineOf s it).priceAtPurchase * (it.quantity : ℚ))).sum,
         acc ++ items.map (lineOf s)) ∧
    ∀ pid, (processItems items s t0 acc).1 pid =
      (s pid).map (fun p => { p with stock := p.stock - qtyFor pid items }) := by
  induction items with
  | nil =>
    intro s t0 acc _ _ _
    refine ⟨by simp [processItems], fun pid => ?_⟩
    simp only [processItems, qtyFor, List.map_nil, List.sum_nil]
    cases s pid <;> simp
  | cons item rest ih =>
    intro s t0 acc hq hex hstock
    obtain ⟨p, hp⟩ := hex item (List.mem_cons_self _ _)
    have hqr : ∀ it ∈ rest, 0 ≤ it.quantity :=
      fun x hx => hq x (List.mem_cons_of_mem _ hx)
    have hqtop : item.quantity + qtyFor item.product rest ≤ p.stock := by
      have := hstock item (List.mem_cons_self _ _) p hp
      rwa [qtyFor_cons, if_pos rfl] at this
    have hnn : 0 ≤ qtyFor item.product rest := qtyFor_nonneg _ _ hqr
    have hnotlt : ¬ p.stock < item.quantity := by omega
    have hstep : processItems (item :: rest) s t0 acc =
        processItems rest (setStock s item.product (p.stock - item.quantity))
          (t0 + effectivePrice p * (item.quantity : ℚ))
          (acc ++ [⟨item.product, item.quantity, effectivePrice p⟩]) := by
      simp only [processItems, hp]
      rw [if_neg hnotlt]
    have hsome : ∀ pid, setStock s item.product (p.stock - item.quantity) pid =
        if pid = item.product then some { p with stock := p.stock - item.quantity }
        else s pid := by
      intro pid
      by_cases hpe : pid = item.product
      · subst hpe; simp [setStock, hp]
      · simp [setStock, hpe]
    have hex' : ∀ it ∈ rest, ∃ q,
        setStock s item.product (p.stock - item.quantity) it.product = some q := by
      intro x hx
      rw [hsome]
      by_cases hpe : x.product = item.product
      · exact ⟨_, by rw [if_pos hpe]⟩
      · obtain ⟨q, hqx⟩ := hex x (List.mem_cons_of_mem _ hx)
        exact ⟨q, by rw [if_neg hpe]; exact hqx⟩
    have hstock' : ∀ it ∈ rest, ∀ q,
        setStock s item.product (p.stock - item.quantity) it.product = some q →
        qtyFor it.product rest ≤ q.stock := by
      intro x hx q hqx
      rw [hsome] at hqx
      by_cases hpe : x.product = item.product
      · rw [if_pos hpe] at hqx
        have hq' := hstock x (List.mem_cons_of_mem _ hx) p (by rw [hpe]; exact hp)
        rw [qtyFor_cons, hpe, if_pos rfl] at hq'
        cases hqx
        rw [hpe]
        show qtyFor item.product rest ≤ p.stock - item.quantity
        omega
      · rw [if_neg hpe] at hqx
        have hq' := hstock x (List.mem_cons_of_mem _ hx) q hqx
        rw [qtyFor_cons, if_neg (fun h => hpe (Eq.symm h))] at hq'
        simpa using hq'
    obtain ⟨ih1, ih2⟩ := ih (setStock s item.product (p.stock - item.quantity))
      (t0 + effectivePrice p * (item.quantity : ℚ))
      (acc ++ [⟨item.product, item.quantity, effectivePrice p⟩]) hqr hex' hstock'
    have hls : lineOf (setStock s item.product (p.stock - item.quantity)) = lineOf s :=
      funext (fun it => lineOf_setStock s item.product (p.stock - item.quantity) it)
    constructor
    · rw [hstep, ih1, hls]
      simp [lineOf, hp, add_assoc, List.append_assoc]
    · intro pid
      rw [hstep, ih2 pid, hsome]
      by_cases hpe : pid = item.product
      · subst hpe
        rw [if_pos rfl, hp]
        have hq2 : qtyFor item.product (item :: rest) =
            item.quantity + qtyFor item.product rest := by
          rw [qtyFor_cons, if_pos rfl]
        simp only [hq2, Option.map_some']
        simp [sub_sub]
      · rw [if_neg hpe]
        have hq2 : qtyFor pid (item :: rest) = qtyFor pid rest := by
          rw [qtyFor_cons, if_neg (fun h => hpe (Eq.symm h)), zero_add]
        simp only [hq2]

/-- When the loop gets through a first batch of items successfully, the
loop on the whole list continues from the state and accumulators the
first batch produced. -/
theorem processItems_append (l₁ : List ReqItem) :
    ∀ (l₂ : List ReqItem) (s : Store) (t : ℚ) (a : List OrderItem)
      (s₁ : Store) (t₁ : ℚ) (a₁ : List OrderItem),
    processItems l₁ s t a = (s₁, Except.ok (t₁, a₁)) →
    processItems (l₁ ++ l₂) s t a = processItems l₂ s₁ t₁ a₁ := by
  induction l₁ with
  | nil =>
    intro l₂ s t a s₁ t₁ a₁ h
    simp only [processItems, Prod.mk.injEq, Except.ok.injEq] at h
    obtain ⟨hs, ht, ha⟩ := h
    rw [List.nil_append, hs, ht, ha]
  | cons item rest ih =>
    intro l₂ s t a s₁ t₁ a₁ h
    cases hsp : s item.product with
    | none => simp only [processItems, hsp] at h; simp at h
    | some p =>
      by_cases hlt : p.stock < item.quantity
      · simp only [processItems, hsp] at h
        rw [if_pos hlt] at h
        simp at h
      · simp only [processItems, hsp] at h
        rw [if_neg hlt] at h
        rw [List.cons_append]
        simp only [processItems, hsp]
        rw [if_neg hlt]
        exact ih l₂ _ _ _ s₁ t₁ a₁ h

/-- A failing head item stops the loop at once with the corresponding
error and no further store change. -/
theorem processItems_head_fail (s : Store) (it : ReqItem) (rest : List ReqItem)
    (t : ℚ) (a : List OrderItem) (e : Err) (h : itemCheck s it = some e) :
    processItems (it :: rest) s t a = (s, Except.error e) := by
  cases hsp : s it.product with
  | none =>
    simp only [itemCheck, hsp, Option.some.injEq] at h
    simp only [processItems, hsp, ← h]
  | some p =>
    by_cases hlt : p.stock < it.quantity
    · simp only [itemCheck, hsp] at h
      rw [if_pos hlt] at h
      simp only [Option.some.injEq] at h
      simp only [processItems, hsp]
      rw [if_pos hlt, ← h]
    · simp only [itemCheck, hsp] at h
      rw [if_neg hlt] at h
      simp at h

/-- Store refuting C1 as stated: product 1 exists with price 10, no
offer, and stock 1. -/
def dupStore : Store :=
  fun j => if j = 1 then some ⟨10, 0, 1⟩ else none

/-- C1 counterexample: the request `[{product 1, qty 1}, {product 1, qty 1}]`
against a store where product 1 has stock 1 satisfies the claim's
hypothesis — every item references an existing product and every item's
quantity (1) is at most that product's stock (1) — yet the operation does
not persist an order: the first item's immediately-persisted decrement
leaves stock 0, so the duplicate second item fails the stock check and
the handler returns the insufficient-stock error. -/
theorem claim_C1_counterexample :
    dupStore 1 = some { price := 10, offer := 0, stock := 1 } ∧
    (createOrder 7 [⟨1, 1⟩, ⟨1, 1⟩] dupStore).2 = Except.error Err.insufficientStock := by
  constructor
  · rfl
  · rfl

/-- C1 (amended): for every order-creation request in which every item's
quantity is nonnegative, every item references an existing product, and
for each product the total quantity requested for it across the whole
request is at most that product's stock, the operation persists an order
whose lines carry `priceAtPurchase = price * (1 - offer/100)` (the
`lineOf` snapshot), whose total is the sum over lines of
`priceAtPurchase * quantity`, whose status and payment status are both
`pending`, and each product's stock decreases by exactly the total
quantity ordered for it. -/
theorem claim_C1 (cid : ℕ) (items : List ReqItem) (s : Store)
    (hne : items ≠ [])
    (hq : ∀ it ∈ items, 0 ≤ it.quantity)
    (hex : ∀ it ∈ items, ∃ p, s it.product = some p)
    (hstock : ∀ it ∈ items, ∀ p, s it.product = some p → qtyFor it.product items ≤ p.stock) :
    (createOrder cid items s).2 =
      Except.ok
        { customer := cid,
          items := items.map (lineOf s),
          total := (items.map (fun it => (lineOf s it).priceAtPurchase * (it.quantity : ℚ))).sum,
          status := OrderStatus.pending,
          paymentStatus := PaymentStatus.pending,
          paymentMethod := PayMethod.cashOnDelivery } ∧
    ∀ pid, (createOrder cid items s).1 pid =
      (s pid).map (fun p => { p with stock := p.stock - qtyFor pid items }) := by
  obtain ⟨h1, h2⟩ := processItems_spec items s 0 [] hq hex hstock
  rcases hpp : processItems items s 0 [] with ⟨s', r⟩
  rw [hpp] at h1 h2
  simp only at h1 h2
  subst h1
  constructor
  · rw [createOrder, if_neg hne, hpp]
    simp
  · intro pid
    rw [createOrder, if_neg hne, hpp]
    simpa using h2 pid

/-- Witness for C1 (amended) at a concrete input: one item for product 1
(price 10, 10 % offer, stock 5) with quantity 2. -/
theorem claim_C1_witness :
    (createOrder 7 [⟨1, 2⟩] demoStore).2 =
      Except.ok
        { customer := 7,
          items := [(⟨1, 2⟩ : ReqItem)].map (lineOf demoStore),
          total := ([(⟨1, 2⟩ : ReqItem)].map
            (fun it => (lineOf demoStore it).priceAtPurchase * (it.quantity : ℚ))).sum,
          status := OrderStatus.pending,
          paymentStatus := PaymentStatus.pending,
          paymentMethod := PayMethod.cashOnDelivery } ∧
    (createOrder 7 [⟨1, 2⟩] demoStore).1 1 =
      (demoStore 1).map (fun p => { p with stock := p.stock - qtyFor 1 [⟨1, 2⟩] }) := by
  have h := claim_C1 7 [⟨1, 2⟩] demoStore (by simp)
    (by decide)
    (by
      intro it hit
      simp only [List.mem_singleton] at hit
      subst hit
      exact ⟨⟨10, 10, 5⟩, rfl⟩)
    (by
      intro it hit p hp
      simp only [List.mem_singleton] at hit
      subst hit
      have hps : p = ⟨10, 10, 5⟩ := by
        have : demoStore (ReqItem.product ⟨1, 2⟩) = some ⟨10, 10, 5⟩ := rfl
        rw [this, Option.some.injEq] at hp
        exact hp.symm
      rw [hps]
      decide)
  exact ⟨h.1, h.2 1⟩

/-- Store with two products: product 1 (price 10, stock 1) and product 2
(price 5, stock 3). -/
def demoStore2 : Store :=
  fun j => if j = 1 then some ⟨10, 0, 1⟩ else if j = 2 then some ⟨5, 0, 3⟩ else none

/-- C2 (confirmed): in a multi-item order-creation request whose first
batch of items (nonempty) all pass the checks but whose next item fails
the product-exists check or the stock check, the handler returns that
item's error (`notFound` or `insufficientStock`), persists no order (the
result is an error, so the order document is never constructed or saved),
and the stock decrements already applied for the earlier items remain
applied: the final store is exactly the store with every earlier item's
quantity already subtracted, with no rollback. -/
theorem claim_C2 (cid : ℕ) (pre : List ReqItem) (bad : ReqItem) (rest : List ReqItem)
    (s : Store) (e : Err)
    (_hne : pre ≠ [])
    (hq : ∀ it ∈ pre, 0 ≤ it.quantity)
    (hex : ∀ it ∈ pre, ∃ p, s it.product = some p)
    (hstock : ∀ it ∈ pre, ∀ p, s it.product = some p → qtyFor it.product pre ≤ p.stock)
    (hbad : itemCheck
      (fun pid => (s pid).map (fun p => { p with stock := p.stock - qtyFor pid pre }))
      bad = some e) :
    (createOrder cid (pre ++ bad :: rest) s).2 = Except.error e ∧
    ∀ pid, (createOrder cid (pre ++ bad :: rest) s).1 pid =
      (s pid).map (fun p => { p with stock := p.stock - qtyFor pid pre }) := by
  obtain ⟨h1, h2⟩ := processItems_spec pre s 0 [] hq hex hstock
  rcases hpp : processItems pre s 0 [] with ⟨s₁, r⟩
  rw [hpp] at h1 h2
  simp only at h1 h2
  subst h1
  have happ := processItems_append pre (bad :: rest) s 0 [] s₁ _ _ hpp
  have hbad2 : itemCheck s₁ bad = some e := by
    unfold itemCheck at hbad ⊢
    rw [h2 bad.product]
    exact hbad
  have hfail := processItems_head_fail s₁ bad rest
    (0 + (List.map (fun it => (lineOf s it).priceAtPurchase * (it.quantity : ℚ)) pre).sum)
    ([] ++ List.map (lineOf s) pre) e hbad2
  have hmain : processItems (pre ++ bad :: rest) s 0 [] = (s₁, Except.error e) := by
    rw [happ, hfail]
  have hcons : (pre ++ bad :: rest) ≠ [] := by simp
  constructor
  · simp only [createOrder, if_neg hcons, hmain]
  · intro pid
    simp only [createOrder, if_neg hcons, hmain]
    exact h2 pid

/-- Witness for C2 at a concrete input: the first item (product 1,
quantity 1) succeeds and decrements stock 1 to 0; the second item asks
for 5 of product 2 which has stock 3, so the request fails with the
insufficient-stock error while product 1's decrement stays applied. -/
theorem claim_C2_witness :
    (createOrder 7 ([⟨1, 1⟩] ++ (⟨2, 5⟩ : ReqItem) :: []) demoStore2).2 =
      Except.error Err.insufficientStock ∧
    (createOrder 7 ([⟨1, 1⟩] ++ (⟨2, 5⟩ : ReqItem) :: []) demoStore2).1 1 =
      (demoStore2 1).map (fun p => { p with stock := p.stock - qtyFor 1 [⟨1, 1⟩] }) := by
  have h := claim_C2 7 [⟨1, 1⟩] ⟨2, 5⟩ [] demoStore2 Err.insufficientStock
    (by simp)
    (by decide)
    (by
      intro it hit
      simp only [List.mem_singleton] at hit
      subst hit
      exact ⟨⟨10, 0, 1⟩, rfl⟩)
    (by
      intro it hit p hp
      simp only [List.mem_singleton] at hit
      subst hit
      have hps : p = ⟨10, 0, 1⟩ := by
        have : demoStore2 (ReqItem.product ⟨1, 1⟩) = some ⟨10, 0, 1⟩ := rfl
        rw [this, Option.some.injEq] at hp
        exact hp.symm
      rw [hps]
      decide)
    (by decide)
  exact ⟨h.1, h.2 1⟩

/-- Store refuting C7 as stated: product 1 exists with stock 0, product 2
does not exist. -/
def mixStore : Store :=
  fun j => if j = 1 then some ⟨10, 0, 0⟩ else none

/-- C7 counterexample: in the request `[{product 1, qty 1}, {product 2, qty 1}]`
against a store where product 1 has stock 0 and product 2 does not
exist, some item (the second) references a missing product, so the claim
as stated demands the not-found error; the handler instead stops at the
first failing item and returns the insufficient-stock error. -/
theorem claim_C7_counterexample :
    mixStore 1 = some { price := 10, offer := 0, stock := 0 } ∧
    mixStore 2 = none ∧
    (createOrder 7 [⟨1, 1⟩, ⟨2, 1⟩] mixStore).2 = Except.error Err.insufficientStock :=
  ⟨rfl, rfl, rfl⟩

/-- C7 (amended): order creation fails with the invalid-input error on an
empty item list, and otherwise with the error of the first item (in input
order) that fails a check — the not-found error when that item's product
is missing, the insufficient-stock error when its quantity exceeds the
stock remaining at that point; in every failure case the result is an
error, so no order is persisted. -/
theorem claim_C7 :
    (∀ (cid : ℕ) (s : Store), createOrder cid [] s = (s, Except.error Err.invalidInput)) ∧
    (∀ (cid : ℕ) (pre : List ReqItem) (bad : ReqItem) (rest : List ReqItem)
       (s s₁ : Store) (t₁ : ℚ) (a₁ : List OrderItem) (e : Err),
      processItems pre s 0 [] = (s₁, Except.ok (t₁, a₁)) →
      itemCheck s₁ bad = some e →
      (createOrder cid (pre ++ bad :: rest) s).2 = Except.error e) := by
  constructor
  · intro cid s
    rw [createOrder, if_pos rfl]
  · intro cid pre bad rest s s₁ t₁ a₁ e hok hbad
    have happ := processItems_append pre (bad :: rest) s 0 [] s₁ t₁ a₁ hok
    have hfail := processItems_head_fail s₁ bad rest t₁ a₁ e hbad
    have hcons : (pre ++ bad :: rest) ≠ [] := by simp
    simp only [createOrder, if_neg hcons, happ, hfail]

/-- Witness for C7 at concrete inputs: the empty request fails with the
invalid-input error, and a request whose first item references the
missing product 2 fails with the not-found error. -/
theorem claim_C7_witness :
    createOrder 7 [] demoStore = (demoStore, Except.error Err.invalidInput) ∧
    (createOrder 7 ([] ++ (⟨2, 1⟩ : ReqItem) :: []) demoStore).2 =
      Except.error Err.notFound :=
  ⟨claim_C7.1 7 demoStore,
   claim_C7.2 7 [] ⟨2, 1⟩ [] demoStore demoStore 0 [] Err.notFound rfl rfl⟩

/-- Empty product collection. -/
def emptyStore : Store := fun _ => none

/-- Concrete delivered order (one line of product 1, total 10, payment
settled) used to exhibit exits from terminal states. -/
def deliveredOrd : Order :=
  { customer := 3, items := [⟨1, 1, 10⟩], total := 10,
    status := OrderStatus.delivered, paymentStatus := PaymentStatus.paid,
    paymentMethod := PayMethod.card }

/-- C3 counterexample: `deliveredOrd` is in the terminal status
`delivered`, yet the vendor status-update operation moves it back to
`shipped` — the handler never consults the current status, so terminal
states can be exited, contrary to the claim. -/
theorem claim_C3_counterexample :
    deliveredOrd.status = OrderStatus.delivered ∧
    vendorUpdateStatus deliveredOrd OrderStatus.shipped =
      Except.ok { deliveredOrd with status := OrderStatus.shipped } :=
  ⟨rfl, rfl⟩

/-- C3 (amended): customer pay and cancellation never exit the terminal
statuses `delivered`, `cancelled`, `refunded` — both fail with the
transition error and change neither the order nor any stock — but the
other operations do exit them: vendor status update moves a delivered
order back to `shipped`, payment confirm marks it `paid`, the admin
update writes any requested status, and a full refund moves a delivered
paid order to `refunded`. -/
theorem claim_C3 :
    (∀ (o : Order) (s : Store),
      o.status = OrderStatus.delivered ∨ o.status = OrderStatus.cancelled ∨
        o.status = OrderStatus.refunded →
      payOrder o = Except.error Err.invalidTransition ∧
      cancelOrder o s = (s, Except.error Err.invalidTransition)) ∧
    (vendorUpdateStatus deliveredOrd OrderStatus.shipped =
        Except.ok { deliveredOrd with status := OrderStatus.shipped } ∧
      (confirmPayment deliveredOrd).status = OrderStatus.paid ∧
      (adminUpdateOrder deliveredOrd (some OrderStatus.pending) none).status =
        OrderStatus.pending ∧
      refundOrder deliveredOrd 10 =
        Except.ok { deliveredOrd with
                    status := OrderStatus.refunded,
                    paymentStatus := PaymentStatus.refunded }) := by
  constructor
  · intro o s h
    constructor
    · rcases h with h | h | h <;> simp [payOrder, h]
    · rcases h with h | h | h <;> simp [cancelOrder, h]
  · refine ⟨rfl, rfl, rfl, ?_⟩
    rw [refundOrder]
    norm_num [deliveredOrd]

/-- Witness for C3 (amended) at a concrete input: on the delivered order,
customer pay and cancellation both fail with the transition error. -/
theorem claim_C3_witness :
    payOrder deliveredOrd = Except.error Err.invalidTransition ∧
    cancelOrder deliveredOrd emptyStore =
      (emptyStore, Except.error Err.invalidTransition) :=
  claim_C3.1 deliveredOrd emptyStore (Or.inl rfl)

/-- C4 (confirmed): cancelling a paid order returns the cancelled order
and restores every line's quantity to its product's stock; cancelling a
pending order returns the cancelled order and leaves the store untouched;
cancelling a delivered, cancelled or refunded order fails with the
transition error and changes nothing. -/
theorem claim_C4 (o : Order) (s : Store) :
    (o.status = OrderStatus.paid →
      (cancelOrder o s).2 = Except.ok { o with status := OrderStatus.cancelled } ∧
      ∀ pid, (cancelOrder o s).1 pid =
        (s pid).map (fun p => { p with stock := p.stock + lineQtyFor pid o.items })) ∧
    (o.status = OrderStatus.pending →
      cancelOrder o s = (s, Except.ok { o with status := OrderStatus.cancelled })) ∧
    (o.status = OrderStatus.delivered ∨ o.status = OrderStatus.cancelled ∨
        o.status = OrderStatus.refunded →
      cancelOrder o s = (s, Except.error Err.invalidTransition)) := by
  refine ⟨?_, ?_, ?_⟩
  · intro h
    have hcond : o.status = OrderStatus.pending ∨ o.status = OrderStatus.paid := Or.inr h
    constructor
    · rw [cancelOrder, if_pos hcond]
    · intro pid
      rw [cancelOrder, if_pos hcond]
      show (if o.status = OrderStatus.paid then restoreStock o.items s else s) pid = _
      rw [if_pos h]
      exact restoreStock_apply o.items s pid
  · intro h
    have hcond : o.status = OrderStatus.pending ∨ o.status = OrderStatus.paid := Or.inl h
    rw [cancelOrder, if_pos hcond, h]
    rw [if_neg (by decide : ¬ (OrderStatus.pending = OrderStatus.paid))]
  · intro h
    rcases h with h | h | h <;> simp [cancelOrder, h]

/-- Concrete paid order: two units of product 1 at snapshot price 10. -/
def paidOrd : Order :=
  { customer := 3, items := [⟨1, 2, 10⟩], total := 20,
    status := OrderStatus.paid, paymentStatus := PaymentStatus.paid,
    paymentMethod := PayMethod.card }

/-- Witness for C4 at a concrete input: cancelling the paid order
`paidOrd` against `demoStore` succeeds and adds its 2 ordered units back
to product 1's stock. -/
theorem claim_C4_witness :
    (cancelOrder paidOrd demoStore).2 =
      Except.ok { paidOrd with status := OrderStatus.cancelled } ∧
    (cancelOrder paidOrd demoStore).1 1 =
      (demoStore 1).map (fun p => { p with stock := p.stock + lineQtyFor 1 paidOrd.items }) := by
  have h := (claim_C4 paidOrd demoStore).1 rfl
  exact ⟨h.1, h.2 1⟩

/-- Concrete paid order with total 0 (an order of a zero-priced product;
the product schema allows price 0 and the admin update can write any
total). -/
def zeroOrd : Order :=
  { customer := 3, items := [⟨1, 1, 0⟩], total := 0,
    status := OrderStatus.paid, paymentStatus := PaymentStatus.paid,
    paymentMethod := PayMethod.card }

/-- C5 counterexample: `zeroOrd` has payment status `paid` and total 0; a
refund with amount 0 is exactly equal to the total, so the claim demands
that both statuses become `refunded`, but the handler's required-fields
check `!amount` treats amount 0 as missing and rejects the request with
the invalid-input error, mutating nothing. -/
theorem claim_C5_counterexample :
    zeroOrd.paymentStatus = PaymentStatus.paid ∧
    zeroOrd.total = 0 ∧
    refundOrder zeroOrd 0 = Except.error Err.invalidInput :=
  ⟨rfl, rfl, rfl⟩

/-- C5 (amended): a refund is accepted only when the order's payment
status is `paid` and the amount is at most the order's total; an amount
strictly greater than the total is always rejected; and a *nonzero*
amount exactly equal to the total sets both the status and the payment
status to `refunded` (amount 0 is rejected by the required-fields check
even when the total is 0). -/
theorem claim_C5 :
    (∀ (o : Order) (a : ℚ) (o' : Order), refundOrder o a = Except.ok o' →
      o.paymentStatus = PaymentStatus.paid ∧ a ≤ o.total) ∧
    (∀ (o : Order) (a : ℚ), o.total < a → ∀ o', refundOrder o a ≠ Except.ok o') ∧
    (∀ (o : Order) (a : ℚ), a ≠ 0 → o.paymentStatus = PaymentStatus.paid →
      a = o.total →
      refundOrder o a = Except.ok { o with
                                    status := OrderStatus.refunded,
                                    paymentStatus := PaymentStatus.refunded }) := by
  refine ⟨?_, ?_, ?_⟩
  · intro o a o' h
    rw [refundOrder] at h
    by_cases h0 : a = 0
    · rw [if_pos h0] at h
      exact absurd h (by simp)
    · rw [if_neg h0] at h
      by_cases h1 : o.paymentStatus ≠ PaymentStatus.paid
      · rw [if_pos h1] at h
        exact absurd h (by simp)
      · rw [if_neg h1] at h
        by_cases h2 : o.total < a
        · rw [if_pos h2] at h
          exact absurd h (by simp)
        · exact ⟨not_not.mp h1, le_of_not_lt h2⟩
  · intro o a hlt o'
    rw [refundOrder]
    by_cases h0 : a = 0
    · rw [if_pos h0]
      simp
    · rw [if_neg h0]
      by_cases h1 : o.paymentStatus ≠ PaymentStatus.paid
      · rw [if_pos h1]
        simp
      · rw [if_neg h1, if_pos hlt]
        simp
  · intro o a h0 hpay heq
    rw [refundOrder, if_neg h0, if_neg (fun hc => hc hpay),
      if_neg (by rw [heq]; exact lt_irrefl o.total), if_pos heq]

/-- Witness for C5 (amended) at concrete inputs on `paidOrd` (total 20):
a full refund of 20 succeeds and marks both statuses refunded (which also
witnesses the acceptance conditions), and a refund of 21 is rejected. -/
theorem claim_C5_witness :
    (paidOrd.paymentStatus = PaymentStatus.paid ∧ (20 : ℚ) ≤ paidOrd.total) ∧
    refundOrder paidOrd 21 ≠ Except.ok paidOrd ∧
    refundOrder paidOrd 20 =
      Except.ok { paidOrd with
                  status := OrderStatus.refunded,
                  paymentStatus := PaymentStatus.refunded } := by
  have hfull := claim_C5.2.2 paidOrd 20 (by norm_num) rfl (by norm_num [paidOrd])
  refine ⟨claim_C5.1 paidOrd 20 _ hfull, ?_, hfull⟩
  exact claim_C5.2.1 paidOrd 21 (by norm_num [paidOrd]) paidOrd

/-- C6 counterexample: `paidOrd` was created with total 20, yet the
admin order-update operation with total 99 in the request body overwrites
the stored total — the total is not immutable after creation. -/
theorem claim_C6_counterexample :
    paidOrd.total = 20 ∧
    (adminUpdateOrder paidOrd none (some 99)).total = 99 :=
  ⟨rfl, rfl⟩

/-- C6 (amended): every line's `priceAtPurchase` (indeed the whole item
list) is fixed at creation and unchanged by every operation — customer
pay, vendor status update, payment confirm, cancellation, refund, and
admin update; the order's total is likewise unchanged by all of them
except the admin update, which leaves it unchanged only when the request
body carries no total and otherwise overwrites it. -/
theorem claim_C6 :
    (∀ (o o' : Order), payOrder o = Except.ok o' →
      o'.total = o.total ∧ o'.items = o.items) ∧
    (∀ (o : Order) (st : OrderStatus) (o' : Order), vendorUpdateStatus o st = Except.ok o' →
      o'.total = o.total ∧ o'.items = o.items) ∧
    (∀ o : Order, (confirmPayment o).total = o.total ∧ (confirmPayment o).items = o.items) ∧
    (∀ (o : Order) (s : Store) (o' : Order), (cancelOrder o s).2 = Except.ok o' →
      o'.total = o.total ∧ o'.items = o.items) ∧
    (∀ (o : Order) (a : ℚ) (o' : Order), refundOrder o a = Except.ok o' →
      o'.total = o.total ∧ o'.items = o.items) ∧
    (∀ (o : Order) (st : Option OrderStatus) (t : Option ℚ),
      (adminUpdateOrder o st t).items = o.items) ∧
    (∀ (o : Order) (st : Option OrderStatus),
      (adminUpdateOrder o st none).total = o.total) := by
  refine ⟨?_, ?_, ?_, ?_, ?_, ?_, ?_⟩
  · intro o o' h
    rw [payOrder] at h
    by_cases h0 : o.status = OrderStatus.pending
    · rw [if_pos h0] at h
      simp only [Except.ok.injEq] at h
      rw [← h]
      exact ⟨rfl, rfl⟩
    · rw [if_neg h0] at h
      exact absurd h (by simp)
  · intro o st o' h
    rw [vendorUpdateStatus] at h
    by_cases h0 : st = OrderStatus.shipped ∨ st = OrderStatus.delivered ∨
        st = OrderStatus.cancelled
    · rw [if_pos h0] at h
      simp only [Except.ok.injEq] at h
      rw [← h]
      exact ⟨rfl, rfl⟩
    · rw [if_neg h0] at h
      exact absurd h (by simp)
  · intro o
    exact ⟨rfl, rfl⟩
  · intro o s o' h
    rw [cancelOrder] at h
    by_cases h0 : o.status = OrderStatus.pending ∨ o.status = OrderStatus.paid
    · rw [if_pos h0] at h
      simp only [Except.ok.injEq] at h
      rw [← h]
      exact ⟨rfl, rfl⟩
    · rw [if_neg h0] at h
      exact absurd h (by simp)
  · intro o a o' h
    rw [refundOrder] at h
    by_cases h0 : a = 0
    · rw [if_pos h0] at h
      exact absurd h (by simp)
    · rw [if_neg h0] at h
      by_cases h1 : o.paymentStatus ≠ PaymentStatus.paid
      · rw [if_pos h1] at h
        exact absurd h (by simp)
      · rw [if_neg h1] at h
        by_cases h2 : o.total < a
        · rw [if_pos h2] at h
          exact absurd h (by simp)
        · rw [if_neg h2] at h
          by_cases h3 : a = o.total
          · rw [if_pos h3] at h
            simp only [Except.ok.injEq] at h
            rw [← h]
            exact ⟨rfl, rfl⟩
          · rw [if_neg h3] at h
            simp only [Except.ok.injEq] at h
            rw [← h]
            exact ⟨rfl, rfl⟩
  · intro o st t
    rfl
  · intro o st
    rfl

/-- Concrete pending order used by the C6 witness. -/
def pendOrd : Order :=
  { customer := 3, items := [⟨1, 1, 10⟩], total := 10,
    status := OrderStatus.pending, paymentStatus := PaymentStatus.pending,
    paymentMethod := PayMethod.cashOnDelivery }

/-- Witness for C6 (amended) at a concrete input: paying the pending
order `pendOrd` preserves its total and its item list. -/
theorem claim_C6_witness :
    ({ pendOrd with status := OrderStatus.paid } : Order).total = pendOrd.total ∧
    ({ pendOrd with status := OrderStatus.paid } : Order).items = pendOrd.items :=
  claim_C6.1 pendOrd { pendOrd with status := OrderStatus.paid } rfl

/-- Store exhibiting the C8 defect: product 1 with price 10, no offer,
stock 5. -/
def negStore : Store :=
  fun j => if j = 1 then some ⟨10, 0, 5⟩ else none

/-- C8 at its failing input: the handler performs no quantity validation,
so the request `[{product 1, qty -1}]` passes the stock check
(`5 < -1` is false), persists an order line with quantity −1 < 1 and a
negative total, and rewrites product 1's stock from 5 to 6 — order
creation *increases* stock, contradicting the claimed invariants the
schema and spec state (`quantity ≥ 1`, stock only decremented). -/
theorem claim_C8_bug :
    negStore 1 = some { price := 10, offer := 0, stock := 5 } ∧
    (createOrder 7 [⟨1, -1⟩] negStore).2 =
      Except.ok
        { customer := 7, items := [⟨1, -1, 10⟩], total := -10,
          status := OrderStatus.pending, paymentStatus := PaymentStatus.pending,
          paymentMethod := PayMethod.cashOnDelivery } ∧
    (createOrder 7 [⟨1, -1⟩] negStore).1 1 = some { price := 10, offer := 0, stock := 6 } := by
  refine ⟨rfl, ?_, ?_⟩
  · simp [createOrder, processItems, negStore, setStock, effectivePrice]
  · simp [createOrder, processItems, negStore, setStock, effectivePrice]

/-- C9 (confirmed): for a nonempty item list the shipping-cost
calculation returns `base[method] + perKg[method] * totalWeight` where
the total weight is half a kilogram per unit of quantity summed over the
items, except that it returns exactly 0 whenever the items' subtotal
(sum of `price * quantity`) is strictly greater than 50. -/
theorem claim_C9 (items : List CartItem) (m : ShipMethod) (hne : items ≠ []) :
    calculateShipping items m =
      Except.ok
        (if 50 < (items.map (fun i => i.price * (i.quantity : ℚ))).sum then 0
         else shipBase m + 1 / 2 * (items.map (fun i => (i.quantity : ℚ))).sum * shipPerKg m) := by
  simp only [calculateShipping, if_neg hne, cartTotals_spec, zero_add]

/-- Witness for C9 at the spec's scenario: a cart with subtotal 60
(2 units at price 30) is above the free-shipping threshold, so the
returned cost is 0 for the standard method despite the nonzero weight. -/
theorem claim_C9_witness :
    calculateShipping [⟨30, 2⟩] ShipMethod.standard = Except.ok 0 := by
  have h := claim_C9 [⟨30, 2⟩] ShipMethod.standard (by simp)
  rw [h]
  norm_num

/-- C10 (confirmed): a refund on a paid order with an amount strictly
between 0 and the order's total reports success and returns the order
completely unchanged — status, payment status, total and items are all
untouched; only a full refund mutates the order. -/
theorem claim_C10 (o : Order) (a : ℚ) (hpay : o.paymentStatus = PaymentStatus.paid)
    (h0 : 0 < a) (hlt : a < o.total) :
    refundOrder o a = Except.ok o := by
  rw [refundOrder, if_neg (ne_of_gt h0), if_neg (fun hc => hc hpay),
    if_neg (not_lt.mpr (le_of_lt hlt)), if_neg (ne_of_lt hlt)]

/-- Witness for C10 at a concrete input: a partial refund of 5 on
`paidOrd` (total 20) succeeds and leaves the order unchanged. -/
theorem claim_C10_witness :
    refundOrder paidOrd 5 = Except.ok paidOrd :=
  claim_C10 paidOrd 5 rfl (by norm_num) (by norm_num [paidOrd])

end Shop
